import Mathlib

/-!
Shallow embedding of the emelia-mcp credential holder and request dispatcher
(src/helpers.ts, provided as src/unnamed/part_000) and of two representative
tool handlers from src/index.ts (get-campaigns and create-email-campaign).

Modelling conventions:
- TypeScript `string | null` is `Option String`.
- JSON values are the inductive `Json`; JSON numbers are modelled as integers
  (no claim depends on fractional values).
- JavaScript truthiness of a string / JSON value is made explicit
  (`jsStrTruthy`, `jsTruthy`); property access that can throw on `null`
  is modelled in `Except` (`jsGetProp`).
- The HTTP transport (`fetch` plus `response.json()`) is a parameter
  `String → RequestInit → FetchResult`: either a network failure (a rejected
  fetch), or a response carrying a status code and `some j` when the body is
  valid JSON parsing to `j`, `none` when parsing the body fails.
- The dispatcher records the network calls it performs in `netCalls`, so
  "no network call is made" is `netCalls = []`.
-/

/-- JSON values, numbers restricted to integers. -/
inductive Json where
  | null : Json
  | bool : Bool → Json
  | num : Int → Json
  | str : String → Json
  | arr : List Json → Json
  | obj : List (String × Json) → Json

/-- JavaScript truthiness of `string | null`: `null` and `""` are falsy. -/
def jsStrTruthy : Option String → Bool
  | none => false
  | some s => s ≠ ""

/-- JavaScript truthiness of a JSON value. -/
def jsTruthy : Json → Bool
  | Json.null => false
  | Json.bool b => b
  | Json.num n => n ≠ 0
  | Json.str s => s ≠ ""
  | Json.arr _ => true
  | Json.obj _ => true

/-- JavaScript property access `v[k]`: throws a TypeError on `null`,
yields the field on objects (last duplicate key wins, as in JS object
literals), and `undefined` (here `Except.ok none`) on other primitives. -/
def jsGetProp : Json → String → Except String (Option Json)
  | Json.null, _ => Except.error "TypeError: cannot read properties of null"
  | Json.obj fields, k =>
      Except.ok (((fields.reverse).find? fun p => p.1 == k).map Prod.snd)
  | _, _ => Except.ok none

/-- JavaScript `.length`: defined on arrays and strings, `undefined` elsewhere. -/
def jsLength : Json → Option Nat
  | Json.arr xs => some xs.length
  | Json.str s => some s.length
  | _ => none

/-- Rendering of a JSON value inside a template literal (`${v}`). -/
def jsToDisplayString : Json → String
  | Json.null => "null"
  | Json.bool true => "true"
  | Json.bool false => "false"
  | Json.num n => toString n
  | Json.str s => s
  | Json.arr xs =>
      String.intercalate "," (xs.attach.map fun x => jsToDisplayString x.1)
  | Json.obj _ => "[object Object]"
decreasing_by
  simp only [Json.arr.sizeOf_spec]
  have := List.sizeOf_lt_of_mem x.2
  omega

/-- `JSON.stringify` (string escaping elided; no claim depends on it). -/
def jsonStringify : Json → String
  | Json.null => "null"
  | Json.bool true => "true"
  | Json.bool false => "false"
  | Json.num n => toString n
  | Json.str s => "\"" ++ s ++ "\""
  | Json.arr xs =>
      "[" ++ String.intercalate "," (xs.attach.map fun x => jsonStringify x.1) ++ "]"
  | Json.obj fs =>
      "\x7b" ++ String.intercalate ","
        (fs.attach.map fun f => "\"" ++ f.1.1 ++ "\":" ++ jsonStringify f.1.2) ++ "\x7d"
decreasing_by
  · simp only [Json.arr.sizeOf_spec]
    have := List.sizeOf_lt_of_mem x.2
    omega
  · simp only [Json.obj.sizeOf_spec]
    have h1 := List.sizeOf_lt_of_mem f.2
    have h2 : sizeOf f.1.2 < sizeOf f.1 := by
      obtain ⟨⟨k, v⟩, hm⟩ := f
      simp
    omega

/-! ## Credential holder (src/unnamed/part_000, lines 3-16) -/

/-- `const USER_AGENT = 'emelia-mcp/1.0'` -/
def USER_AGENT : String := "emelia-mcp/1.0"

/-- `setEmeliaApiKey(apiKey)`: `userApiKey = apiKey`. State-passing style:
the argument is the previous cell content, the result the new one. -/
def setEmeliaApiKey (apiKey : String) (_userApiKey : Option String) : Option String :=
  some apiKey

/-- `clearEmeliaApiKey()`: `userApiKey = null`. -/
def clearEmeliaApiKey (_userApiKey : Option String) : Option String :=
  none

/-- `getEmeliaApiKey()`: `return userApiKey || null` — the empty string is
falsy, so it is normalised to `null`. -/
def getEmeliaApiKey (userApiKey : Option String) : Option String :=
  match userApiKey with
  | some k => if k = "" then none else some k
  | none => none

/-! ## Request dispatcher (src/unnamed/part_000, lines 18-55) -/

/-- The caller-relevant fields of a `RequestInit`. -/
structure RequestInit where
  method : Option String := none
  body : Option String := none
  headers : List (String × String) := []
deriving Repr, DecidableEq

/-- Outcome of `fetch` + `response.json()`: a network failure (rejected
fetch), or a response with its status code and, when the body is valid
JSON, the parsed value (`none` = the body fails to parse). -/
inductive FetchResult where
  | networkError : FetchResult
  | response : Nat → Option Json → FetchResult

/-- Header lookup with JS object-spread semantics: the last entry for a
name wins. -/
def getHeader (hs : List (String × String)) (k : String) : Option String :=
  ((hs.reverse).find? fun p => p.1 == k).map Prod.snd

/-- The fixed header object built by `makeEmeliaRequest` (lines 30-35). -/
def fixedHeaders (apiKey : String) : List (String × String) :=
  [("User-Agent", USER_AGENT),
   ("Accept", "application/json"),
   ("Authorization", "Bearer " ++ apiKey),
   ("Content-Type", "application/json")]

/-- The merged request options: `{...options, headers: {...headers,
...(options?.headers || {})}}` — caller-supplied headers are spread after
the fixed ones, so they win. -/
def buildRequestOptions (apiKey : String) (options : Option RequestInit) : RequestInit :=
  let opts := options.getD {}
  { opts with headers := fixedHeaders apiKey ++ opts.headers }

/-- The body of the `try` block (lines 37-50), with each `throw` /
rejection made explicit: a rejected `fetch`, the `HTTP error!` throw on
`!response.ok`, and a rejected `response.json()`. -/
def emeliaRequestAttempt (transport : String → RequestInit → FetchResult)
    (apiKey : String) (url : String) (options : Option RequestInit) :
    Except String Json :=
  match transport url (buildRequestOptions apiKey options) with
  | FetchResult.networkError => Except.error "fetch failed"
  | FetchResult.response status body =>
      if 200 ≤ status ∧ status ≤ 299 then
        match body with
        | some j => Except.ok j
        | none => Except.error "response.json() rejected"
      else
        Except.error ("HTTP error! status: " ++ toString status)

/-- Observable outcome of one dispatcher call: the returned `T | null`,
plus the network requests actually issued. -/
structure DispatchOutcome where
  result : Option Json
  netCalls : List (String × RequestInit)

/-- `makeEmeliaRequest(url, options?)` (lines 19-55): read the key via
`getEmeliaApiKey()`, fail fast on a falsy key with no network call,
otherwise issue exactly one request and collapse every failure of the
`try` block to `null`. -/
def makeEmeliaRequest (transport : String → RequestInit → FetchResult)
    (state : Option String) (url : String) (options : Option RequestInit) :
    DispatchOutcome :=
  match getEmeliaApiKey state with
  | none => { result := none, netCalls := [] }
  | some apiKey =>
      if apiKey = "" then { result := none, netCalls := [] }
      else
        { result :=
            match emeliaRequestAttempt transport apiKey url options with
            | Except.ok j => some j
            | Except.error _ => none,
          netCalls := [(url, buildRequestOptions apiKey options)] }

/-! ## Tool handlers (src/index.ts) -/

/-- `const EMELIA_REST_API = 'https://api.emelia.io'` (index.ts line 16). -/
def EMELIA_REST_API : String := "https://api.emelia.io"

/-- The authentication-required message every request-performing handler
returns when `!getEmeliaApiKey()`. -/
def authRequiredText : String :=
  "Authentication required. Please use the authenticate tool with your Emelia API key first."

/-- Observable outcome of one tool handler invocation: the text content it
returns, plus the network requests issued on its behalf. -/
structure ToolResult where
  text : String
  netCalls : List (String × RequestInit)
deriving Repr, DecidableEq

/-- Truthiness of a possibly-`undefined` JavaScript value. -/
def jsTruthyOpt : Option Json → Bool
  | some j => jsTruthy j
  | none => false

/-- `${v || fallback}` rendering of a possibly-`undefined` field. -/
def jsDisplayOr (v : Option Json) (fallback : String) : String :=
  match v with
  | some j => if jsTruthy j then jsToDisplayString j else fallback
  | none => fallback

/-- `formatCampaign` (src/unnamed/part_000, lines 58-66), lifted to raw
JSON: property access on a `null` element throws. -/
def formatCampaign (campaign : Json) : Except String String := do
  let idField ← jsGetProp campaign "_id"
  let nameField ← jsGetProp campaign "name"
  let statusField ← jsGetProp campaign "status"
  pure (String.intercalate "\n"
    ["Campaign ID: " ++ jsDisplayOr idField "-",
     "Campaign Name: " ++ jsDisplayOr nameField "-",
     "Campaign Status: " ++ jsDisplayOr statusField "-",
     "Campaign Type: Email",
     "---"])

/-- The `get-campaigns` handler (index.ts lines 64-129): credential check,
query-string concatenation, one dispatcher call, permissive consumption of
the response (`campaignsData.campaigns || []`), and text rendering.
`Except.error` marks a thrown TypeError (possible only on a response whose
truthy `campaigns` field is not an array, or on a `null` array element). -/
def getCampaignsHandler (transport : String → RequestInit → FetchResult)
    (state : Option String) (status : Option String) :
    Except String ToolResult :=
  if (getEmeliaApiKey state).isNone then
    Except.ok { text := authRequiredText, netCalls := [] }
  else
    let queryUrl :=
      EMELIA_REST_API ++ "/emails/campaigns" ++
        (if jsStrTruthy status then "?status=" ++ status.getD "" else "")
    let outcome := makeEmeliaRequest transport state queryUrl none
    match outcome.result with
    | none =>
        Except.ok { text := "Failed to retrieve campaigns data", netCalls := outcome.netCalls }
    | some campaignsData =>
        if jsTruthy campaignsData = false then
          Except.ok { text := "Failed to retrieve campaigns data", netCalls := outcome.netCalls }
        else do
          let campaignsField ← jsGetProp campaignsData "campaigns"
          let campaigns : Json :=
            if jsTruthyOpt campaignsField then campaignsField.getD Json.null else Json.arr []
          if jsLength campaigns = some 0 then
            pure { text := "No active campaigns", netCalls := outcome.netCalls }
          else
            match campaigns with
            | Json.arr xs => do
                let formatted ← xs.mapM formatCampaign
                pure { text := "Campaigns list:\n\n" ++ String.intercalate "\n" formatted,
                       netCalls := outcome.netCalls }
            | _ => Except.error "TypeError: campaigns.map is not a function"

/-- The `create-email-campaign` handler (index.ts lines 132-173):
credential check, one POST dispatch, branch on `!response || !response.success`. -/
def createEmailCampaignHandler (transport : String → RequestInit → FetchResult)
    (state : Option String) (name : String) :
    Except String ToolResult :=
  if (getEmeliaApiKey state).isNone then
    Except.ok { text := authRequiredText, netCalls := [] }
  else
    let outcome := makeEmeliaRequest transport state (EMELIA_REST_API ++ "/emails/campaigns")
      (some { method := some "POST",
              body := some (jsonStringify (Json.obj [("name", Json.str name)])) })
    match outcome.result with
    | none =>
        Except.ok { text := "Failed to create campaign", netCalls := outcome.netCalls }
    | some response =>
        if jsTruthy response = false then
          Except.ok { text := "Failed to create campaign", netCalls := outcome.netCalls }
        else do
          let successField ← jsGetProp response "success"
          if jsTruthyOpt successField = false then
            pure { text := "Failed to create campaign", netCalls := outcome.netCalls }
          else
            pure { text := "Campaign \"" ++ name ++ "\" created successfully!",
                   netCalls := outcome.netCalls }

/-! ## Helper lemmas -/

/-- Inversion for `getEmeliaApiKey`: a returned key is the stored cell
value and is nonempty. -/
theorem getEmeliaApiKey_eq_some (s : Option String) (key : String)
    (h : getEmeliaApiKey s = some key) : s = some key ∧ key ≠ "" := by
  cases s with
  | none => simp [getEmeliaApiKey] at h
  | some k =>
      unfold getEmeliaApiKey at h
      by_cases hk : k = ""
      · simp [hk] at h
      · simp only [if_neg hk, Option.some.injEq] at h
        subst h
        exact ⟨rfl, hk⟩

/-- Header lookup over a JS object spread: the later (right) object wins. -/
theorem getHeader_append (a b : List (String × String)) (k : String) :
    getHeader (a ++ b) k = (getHeader b k).or (getHeader a k) := by
  unfold getHeader
  rw [List.reverse_append, List.find?_append]
  cases b.reverse.find? (fun p => p.1 == k) <;> simp

/-! ## Claims -/

/-- C1: every dispatcher call made while no credential is set performs no
network call and returns the absent result immediately. -/
theorem makeEmeliaRequest_no_credential
    (transport : String → RequestInit → FetchResult) (s : Option String)
    (url : String) (options : Option RequestInit)
    (h : getEmeliaApiKey s = none) :
    makeEmeliaRequest transport s url options = { result := none, netCalls := [] } := by
  unfold makeEmeliaRequest
  rw [h]

/-- C1 witness: the fail-fast guard at a concrete unauthenticated state. -/
theorem makeEmeliaRequest_no_credential_witness :
    makeEmeliaRequest (fun _ _ => FetchResult.networkError) none
      "https://api.emelia.io/emails/campaigns" none
      = { result := none, netCalls := [] } :=
  makeEmeliaRequest_no_credential _ none _ none rfl

/-- C2 counterexample: `setCredential("")` followed by `getCredential()`
does not return the empty-string token — `userApiKey || null` normalises
`""` to the absent marker, so "returns exactly that token" fails at `""`. -/
theorem setEmeliaApiKey_empty_get_cex :
    getEmeliaApiKey (setEmeliaApiKey "" none) ≠ some "" := by
  decide

/-- C2 (amended): for every nonempty token, `setEmeliaApiKey` replaces any
existing token unconditionally with no validation, a subsequent
`getEmeliaApiKey` returns exactly that token, and `getEmeliaApiKey` is a
total function returning either the stored token or the absent marker. -/
theorem setEmeliaApiKey_get_roundtrip (token : String) (s : Option String)
    (h : token ≠ "") :
    setEmeliaApiKey token s = some token ∧
    getEmeliaApiKey (setEmeliaApiKey token s) = some token ∧
    (∀ t : Option String, getEmeliaApiKey t = none ∨ getEmeliaApiKey t = t) := by
  refine ⟨rfl, ?_, ?_⟩
  · simp [setEmeliaApiKey, getEmeliaApiKey, h]
  · intro t
    cases t with
    | none => exact Or.inl rfl
    | some k =>
        by_cases hk : k = ""
        · exact Or.inl (by simp [getEmeliaApiKey, hk])
        · exact Or.inr (by simp [getEmeliaApiKey, hk])

/-- C2 witness: the amended round trip at the concrete token `"abc"`. -/
theorem setEmeliaApiKey_get_roundtrip_witness :
    setEmeliaApiKey "abc" none = some "abc" ∧
    getEmeliaApiKey (setEmeliaApiKey "abc" none) = some "abc" ∧
    (∀ t : Option String, getEmeliaApiKey t = none ∨ getEmeliaApiKey t = t) :=
  setEmeliaApiKey_get_roundtrip "abc" none (by decide)

/-- C3: after `setEmeliaApiKey X` then `clearEmeliaApiKey`, a dispatch is
identical to one in the never-authenticated state: absent result, no
network call. -/
theorem clear_after_set_dispatch
    (transport : String → RequestInit → FetchResult) (X : String)
    (s : Option String) (url : String) (options : Option RequestInit) :
    makeEmeliaRequest transport (clearEmeliaApiKey (setEmeliaApiKey X s)) url options
      = makeEmeliaRequest transport none url options ∧
    makeEmeliaRequest transport (clearEmeliaApiKey (setEmeliaApiKey X s)) url options
      = { result := none, netCalls := [] } :=
  ⟨rfl, rfl⟩

/-- C4: with a credential set, one dispatch issues exactly one request
whose options keep the caller's method and body and whose headers are the
fixed set spread first, caller-supplied headers second — so for every
header name the effective value is the caller's when present, otherwise
the fixed default (last-write-wins merge). -/
theorem makeEmeliaRequest_header_merge
    (transport : String → RequestInit → FetchResult) (s : Option String)
    (key url : String) (opts : RequestInit)
    (h : getEmeliaApiKey s = some key) :
    ∃ req : RequestInit,
      (makeEmeliaRequest transport s url (some opts)).netCalls = [(url, req)] ∧
      req.method = opts.method ∧
      req.body = opts.body ∧
      req.headers = fixedHeaders key ++ opts.headers ∧
      fixedHeaders key =
        [("User-Agent", "emelia-mcp/1.0"),
         ("Accept", "application/json"),
         ("Authorization", "Bearer " ++ key),
         ("Content-Type", "application/json")] ∧
      (∀ k, getHeader req.headers k
          = (getHeader opts.headers k).or (getHeader (fixedHeaders key) k)) := by
  obtain ⟨hs, hne⟩ := getEmeliaApiKey_eq_some s key h
  subst hs
  refine ⟨buildRequestOptions key (some opts), ?_, rfl, rfl, rfl, rfl, ?_⟩
  · unfold makeEmeliaRequest
    simp [getEmeliaApiKey, hne]
  · intro k
    exact getHeader_append _ _ _

/-- C4 witness: the merge at a concrete state where the caller overrides
`Content-Type`. -/
theorem makeEmeliaRequest_header_merge_witness :
    ∃ req : RequestInit,
      (makeEmeliaRequest (fun _ _ => FetchResult.networkError) (some "k") "u"
        (some { headers := [("Content-Type", "text/plain")] })).netCalls = [("u", req)] ∧
      req.method = ({ headers := [("Content-Type", "text/plain")] } : RequestInit).method ∧
      req.body = ({ headers := [("Content-Type", "text/plain")] } : RequestInit).body ∧
      req.headers = fixedHeaders "k" ++ [("Content-Type", "text/plain")] ∧
      fixedHeaders "k" =
        [("User-Agent", "emelia-mcp/1.0"),
         ("Accept", "application/json"),
         ("Authorization", "Bearer " ++ "k"),
         ("Content-Type", "application/json")] ∧
      (∀ k, getHeader req.headers k
          = (getHeader [("Content-Type", "text/plain")] k).or (getHeader (fixedHeaders "k") k)) :=
  makeEmeliaRequest_header_merge (fun _ _ => FetchResult.networkError) (some "k") "k" "u"
    { headers := [("Content-Type", "text/plain")] } (by decide)

/-- C5: with a credential set, a response whose status is outside 200-299
yields the absent result whatever the body, with exactly one request
issued (no retry) and no case split on 4xx versus 5xx; a success-status
response whose body fails to parse as JSON also yields the absent result. -/
theorem makeEmeliaRequest_failure_collapse
    (s : Option String) (key url : String) (options : Option RequestInit)
    (status : Nat) (body : Option Json)
    (h : getEmeliaApiKey s = some key) :
    (¬ (200 ≤ status ∧ status ≤ 299) →
      (makeEmeliaRequest (fun _ _ => FetchResult.response status body) s url options).result
        = none ∧
      (makeEmeliaRequest (fun _ _ => FetchResult.response status body) s url options).netCalls.length
        = 1) ∧
    ((200 ≤ status ∧ status ≤ 299) →
      (makeEmeliaRequest (fun _ _ => FetchResult.response status none) s url options).result
        = none) := by
  obtain ⟨hs, hne⟩ := getEmeliaApiKey_eq_some s key h
  subst hs
  constructor
  · intro hst
    unfold makeEmeliaRequest emeliaRequestAttempt
    simp [getEmeliaApiKey, hne, hst]
  · intro hst
    unfold makeEmeliaRequest emeliaRequestAttempt
    simp [getEmeliaApiKey, hne, hst]

/-- C5 witness: a 404 with a non-empty body and a 200 with an unparseable
body both collapse to the absent result. -/
theorem makeEmeliaRequest_failure_collapse_witness :
    ((makeEmeliaRequest (fun _ _ => FetchResult.response 404 (some (Json.bool true)))
        (some "k") "u" none).result = none ∧
      (makeEmeliaRequest (fun _ _ => FetchResult.response 404 (some (Json.bool true)))
        (some "k") "u" none).netCalls.length = 1) ∧
    (makeEmeliaRequest (fun _ _ => FetchResult.response 200 (none : Option Json))
        (some "k") "u" none).result = none :=
  ⟨(makeEmeliaRequest_failure_collapse (some "k") "k" "u" none 404 (some (Json.bool true))
      (by decide)).1 (by omega),
   (makeEmeliaRequest_failure_collapse (some "k") "k" "u" none 200 (some (Json.bool true))
      (by decide)).2 (by omega)⟩

/-- C6: the dispatcher always terminates with a present or absent result,
and every failure of its try-block body (rejected fetch, non-success
status, body-parse rejection) is caught and collapsed to the absent
result rather than propagated to the caller. -/
theorem makeEmeliaRequest_never_raises
    (transport : String → RequestInit → FetchResult) (s : Option String)
    (url : String) (options : Option RequestInit) :
    ((makeEmeliaRequest transport s url options).result = none ∨
      ∃ j, (makeEmeliaRequest transport s url options).result = some j) ∧
    (∀ key e, getEmeliaApiKey s = some key →
      emeliaRequestAttempt transport key url options = Except.error e →
      (makeEmeliaRequest transport s url options).result = none) := by
  constructor
  · cases h : (makeEmeliaRequest transport s url options).result with
    | none => exact Or.inl rfl
    | some j => exact Or.inr ⟨j, rfl⟩
  · intro key e hk he
    obtain ⟨hs, hne⟩ := getEmeliaApiKey_eq_some s key hk
    subst hs
    unfold makeEmeliaRequest
    simp [getEmeliaApiKey, hne, he]

/-- C6 witness: a network failure at a concrete authenticated state is
caught and reported as the absent result. -/
theorem makeEmeliaRequest_never_raises_witness :
    (makeEmeliaRequest (fun _ _ => FetchResult.networkError) (some "k") "u" none).result
      = none :=
  (makeEmeliaRequest_never_raises (fun _ _ => FetchResult.networkError) (some "k") "u" none).2
    "k" "fetch failed" (by decide) rfl

/-- The simulated response body `{"success": true, "campaigns": []}`. -/
def sampleCampaignsBody : Json :=
  Json.obj [("success", Json.bool true), ("campaigns", Json.arr [])]

/-- C7: against a transport answering 200 with body
`{"success": true, "campaigns": []}`, the dispatcher returns exactly that
object, and the get-campaigns handler renders the "No active campaigns"
message rather than an empty list. -/
theorem getCampaigns_empty_renders_no_campaigns (apiKey url : String)
    (h : apiKey ≠ "") :
    (makeEmeliaRequest (fun _ _ => FetchResult.response 200 (some sampleCampaignsBody))
        (some apiKey) url none).result = some sampleCampaignsBody ∧
    ∃ r : ToolResult,
      getCampaignsHandler (fun _ _ => FetchResult.response 200 (some sampleCampaignsBody))
        (some apiKey) none = Except.ok r ∧
      r.text = "No active campaigns" := by
  constructor
  · unfold makeEmeliaRequest emeliaRequestAttempt
    simp [getEmeliaApiKey, h]
  · refine ⟨{ text := "No active campaigns",
              netCalls := [("https://api.emelia.io/emails/campaigns",
                            buildRequestOptions apiKey none)] }, ?_, rfl⟩
    unfold getCampaignsHandler makeEmeliaRequest emeliaRequestAttempt
    simp [getEmeliaApiKey, h, jsStrTruthy, jsTruthy, jsTruthyOpt, jsGetProp, jsLength,
      sampleCampaignsBody, EMELIA_REST_API, Bind.bind, Except.bind, Pure.pure, Except.pure]

/-- C7 witness: the same behaviour at a concrete key and URL. -/
theorem getCampaigns_empty_renders_no_campaigns_witness :
    (makeEmeliaRequest (fun _ _ => FetchResult.response 200 (some sampleCampaignsBody))
        (some "k") "https://api.emelia.io/emails/campaigns" none).result
      = some sampleCampaignsBody ∧
    ∃ r : ToolResult,
      getCampaignsHandler (fun _ _ => FetchResult.response 200 (some sampleCampaignsBody))
        (some "k") none = Except.ok r ∧
      r.text = "No active campaigns" :=
  getCampaigns_empty_renders_no_campaigns "k" "https://api.emelia.io/emails/campaigns"
    (by decide)

/-- C8: the get-campaigns and create-email-campaign handlers each perform
their own credential check first: with no credential set they return the
authentication-required message and issue no network request. -/
theorem handlers_require_credential
    (transport : String → RequestInit → FetchResult) (s : Option String)
    (status : Option String) (name : String)
    (h : getEmeliaApiKey s = none) :
    getCampaignsHandler transport s status
      = Except.ok { text := authRequiredText, netCalls := [] } ∧
    createEmailCampaignHandler transport s name
      = Except.ok { text := authRequiredText, netCalls := [] } := by
  unfold getCampaignsHandler createEmailCampaignHandler
  simp [h]

/-- C8 witness: both handlers at the concrete unauthenticated state. -/
theorem handlers_require_credential_witness :
    getCampaignsHandler (fun _ _ => FetchResult.networkError) none none
      = Except.ok { text := authRequiredText, netCalls := [] } ∧
    createEmailCampaignHandler (fun _ _ => FetchResult.networkError) none "My campaign"
      = Except.ok { text := authRequiredText, netCalls := [] } :=
  handlers_require_credential (fun _ _ => FetchResult.networkError) none none "My campaign" rfl

/-- C9: setting the same token twice leaves the state, and therefore every
subsequent dispatch — including the headers of the request it issues —
identical to setting it once. -/
theorem setEmeliaApiKey_idempotent
    (X : String) (s : Option String)
    (transport : String → RequestInit → FetchResult)
    (url : String) (options : Option RequestInit) :
    setEmeliaApiKey X (setEmeliaApiKey X s) = setEmeliaApiKey X s ∧
    makeEmeliaRequest transport (setEmeliaApiKey X (setEmeliaApiKey X s)) url options
      = makeEmeliaRequest transport (setEmeliaApiKey X s) url options ∧
    (makeEmeliaRequest transport (setEmeliaApiKey X (setEmeliaApiKey X s)) url options).netCalls
      = (makeEmeliaRequest transport (setEmeliaApiKey X s) url options).netCalls :=
  ⟨rfl, rfl, rfl⟩

/-- C10: setting the empty string as credential is observationally
equivalent to clearing: the getter returns the absent marker, and every
dispatch returns absent with no network call, exactly as after a clear. -/
theorem setEmpty_equiv_clear
    (s t : Option String) (transport : String → RequestInit → FetchResult)
    (url : String) (options : Option RequestInit) :
    getEmeliaApiKey (setEmeliaApiKey "" s) = none ∧
    getEmeliaApiKey (setEmeliaApiKey "" s) = getEmeliaApiKey (clearEmeliaApiKey t) ∧
    makeEmeliaRequest transport (setEmeliaApiKey "" s) url options
      = { result := none, netCalls := [] } ∧
    makeEmeliaRequest transport (setEmeliaApiKey "" s) url options
      = makeEmeliaRequest transport (clearEmeliaApiKey t) url options := by
  refine ⟨?_, ?_, ?_, ?_⟩ <;>
    simp [getEmeliaApiKey, setEmeliaApiKey, clearEmeliaApiKey, makeEmeliaRequest]
